import Mathlib

/-!
Verification development for the dataset-merging pipeline in
`src/Convertors/combining_datasets.py` (module `merge_datasets_3class_static`).

Strings are modelled as Lean `String` (logically a `List Char`), so every
Python `str` operation is embedded char-wise.  The Unicode NFKC call
(`unicodedata.normalize('NFKC', text)`) is embedded as the standard
normalization algorithm — full decomposition, canonical reordering,
canonical composition with blocking — driven by explicit finite tables
(combining classes, decompositions, primary composites) restricted to the
characters this development reasons about; characters outside the tables
are treated as inert starters with no decomposition, which matches Unicode
for every character that has no decomposition and combining class 0.
-/

namespace Merge

/-- Model of Python's whitespace test: the characters for which
`str.isspace()` holds and which `\s` matches in `re` for `str` patterns
(CPython uses the same `Py_UNICODE_ISSPACE` table for both): the ASCII
control whitespace, the file/group/record/unit separators 0x1C–0x1F,
space, NEL, NBSP, and the Unicode White_Space spaces. -/
def pyIsSpace (c : Char) : Bool :=
  let n := c.toNat
  decide ((9 ≤ n ∧ n ≤ 13) ∨ (28 ≤ n ∧ n ≤ 31) ∨ n = 32 ∨ n = 0x85 ∨
    n = 0xA0 ∨ n = 0x1680 ∨ (0x2000 ≤ n ∧ n ≤ 0x200A) ∨ n = 0x2028 ∨
    n = 0x2029 ∨ n = 0x202F ∨ n = 0x205F ∨ n = 0x3000)

/-- Model of Python `str.strip()` on the character list: drop leading and
trailing whitespace. -/
def pyStripL (l : List Char) : List Char :=
  ((l.dropWhile pyIsSpace).reverse.dropWhile pyIsSpace).reverse

/-- Model of Python `str.strip()`. -/
def pyStrip (s : String) : String := String.mk (pyStripL s.data)

/-- Model of Python `str.lower()`, char-wise with ASCII case mapping.
Python's simple lowercase mapping agrees with this on every string whose
lowering is compared against the pipeline's ASCII keyword sets and
canonical labels, which is the only use the source makes of `lower()`. -/
def pyLower (s : String) : String := String.mk (s.data.map Char.toLower)

/-! ## Unicode NFKC model -/

/-- Canonical combining classes of the combining marks this development
reasons about (Arabic harakat and hamza marks, superscript alef, and a few
Latin combining marks); every other character has class 0. -/
def cccTable : List (Nat × Nat) :=
  [(0x300, 230), (0x301, 230), (0x302, 230), (0x303, 230), (0x304, 230),
   (0x306, 230), (0x307, 230), (0x308, 230), (0x30A, 230), (0x323, 220),
   (0x64B, 27), (0x64C, 28), (0x64D, 29), (0x64E, 30), (0x64F, 31),
   (0x650, 32), (0x651, 33), (0x652, 34), (0x653, 230), (0x654, 230),
   (0x655, 220), (0x656, 220), (0x657, 230), (0x658, 230), (0x659, 230),
   (0x65A, 230), (0x65B, 230), (0x65C, 220), (0x65D, 230), (0x65E, 230),
   (0x65F, 220), (0x670, 35)]

/-- Canonical combining class of a character (0 for starters). -/
def ccc (c : Char) : Nat := (cccTable.lookup c.toNat).getD 0

/-- Canonical decompositions (already fully decomposed pairs): the Arabic
hamza/madda composites and the Latin composites used in this development. -/
def decompTable : List (Nat × (Char × Char)) :=
  [(0x622, ('ا', 'ٓ')), (0x623, ('ا', 'ٔ')),
   (0x624, ('و', 'ٔ')), (0x625, ('ا', 'ٕ')),
   (0x626, ('ي', 'ٔ')), (0x1E60, ('S', '̇')),
   (0x1E61, ('s', '̇')), (0x00E9, ('e', '́')),
   (0x1EB9, ('e', '̣'))]

/-- Primary composites: the inverse of `decompTable`. -/
def composeTable : List ((Nat × Nat) × Char) :=
  [((0x627, 0x653), 'آ'), ((0x627, 0x654), 'أ'),
   ((0x648, 0x654), 'ؤ'), ((0x627, 0x655), 'إ'),
   ((0x64A, 0x654), 'ئ'), ((0x53, 0x307), 'Ṡ'),
   ((0x73, 0x307), 'ṡ'), ((0x65, 0x301), 'é'),
   ((0x65, 0x323), 'ẹ')]

/-- Full decomposition of one character (the table's images are already
fully decomposed, so one level suffices). -/
def decompose1 (c : Char) : List Char :=
  match decompTable.lookup c.toNat with
  | some (a, b) => [a, b]
  | none => [c]

/-- Full decomposition of a character sequence. -/
def nfdDecompose (l : List Char) : List Char := l.flatMap decompose1

/-- Stable insertion of a combining mark into an already canonically
ordered run: the mark goes after every mark of combining class ≤ its own. -/
def insertMark (c : Char) : List Char → List Char
  | [] => [c]
  | d :: ds => if ccc d ≤ ccc c then d :: insertMark c ds else c :: d :: ds

/-- Canonical (stable) ordering of one maximal run of non-starters. -/
def sortMarks (l : List Char) : List Char :=
  l.foldl (fun acc c => insertMark c acc) []

/-- Canonical Ordering Algorithm: stable-sort every maximal run of
non-starters by combining class, leaving starters in place.  The first
argument buffers the current run of non-starters. -/
def canonReorderGo (buf : List Char) : List Char → List Char
  | [] => sortMarks buf
  | c :: rest =>
    if ccc c = 0 then sortMarks buf ++ c :: canonReorderGo [] rest
    else canonReorderGo (buf ++ [c]) rest

/-- Canonical ordering of a fully decomposed sequence. -/
def canonReorder (l : List Char) : List Char := canonReorderGo [] l

/-- Primary composite of a starter and a following character, if any. -/
def composePair (a b : Char) : Option Char :=
  composeTable.lookup (a.toNat, b.toNat)

/-- Whether a character is blocked from the last starter by the pending
(not yet emitted) combining marks: blocked iff the last pending mark has
combining class ≥ the character's. -/
def blockedBy (pend : List Char) (c : Char) : Bool :=
  match pend.getLast? with
  | none => false
  | some m => decide (ccc c ≤ ccc m)

/-- Canonical Composition Algorithm over a canonically ordered sequence:
`st` is the last starter (not yet emitted), `pend` the marks after it that
failed to compose. -/
def composeGo (st : Option Char) (pend : List Char) :
    List Char → List Char
  | [] =>
    match st with
    | none => pend
    | some s => s :: pend
  | c :: rest =>
    match st with
    | none =>
      if ccc c = 0 then composeGo (some c) [] rest
      else c :: composeGo none [] rest
    | some s =>
      if ccc c = 0 then
        match pend with
        | [] =>
          match composePair s c with
          | some sc => composeGo (some sc) [] rest
          | none => s :: composeGo (some c) [] rest
        | _ => s :: (pend ++ composeGo (some c) [] rest)
      else
        if blockedBy pend c then composeGo (some s) (pend ++ [c]) rest
        else
          match composePair s c with
          | some sc => composeGo (some sc) pend rest
          | none => composeGo (some s) (pend ++ [c]) rest

/-- Model of `unicodedata.normalize('NFKC', ·)` on character lists:
decompose, reorder canonically, recompose. -/
def nfkcL (l : List Char) : List Char :=
  composeGo none [] (canonReorder (nfdDecompose l))

/-- Model of `unicodedata.normalize('NFKC', ·)` on strings. -/
def nfkc (s : String) : String := String.mk (nfkcL s.data)

/-! ## arabic_normalize (combining_datasets.py lines 165–174) -/

/-- The Arabic tatweel (kashida) character removed by the normalizer. -/
def TATWEEL : Char := 'ـ'

/-- Step `text.replace('ـ', '')`: remove every tatweel. -/
def detatweel (l : List Char) : List Char := l.filter (fun c => c != TATWEEL)

/-- The alef variants folded by `re.sub(r'[إأآ]', 'ا', text)`. -/
def alefVariant (c : Char) : Bool := c == 'إ' || c == 'أ' || c == 'آ'

/-- Step `re.sub(r'[إأآ]', 'ا', text)`: fold alef variants to bare alef. -/
def aleffold (l : List Char) : List Char :=
  l.map (fun c => if alefVariant c then 'ا' else c)

/-- The characters matched by `[ً-ٰٟ]` (Arabic diacritics
and superscript alef). -/
def isArabDiac (c : Char) : Bool :=
  decide ((0x64B ≤ c.toNat ∧ c.toNat ≤ 0x65F) ∨ c.toNat = 0x670)

/-- Step `re.sub(r'[ً-ٰٟ]', '', text)`: strip diacritics. -/
def dediac (l : List Char) : List Char := l.filter (fun c => !isArabDiac c)

/-- Step `re.sub(r'ى', 'ي', text)`: fold alef maqsura to yeh. -/
def yafold (l : List Char) : List Char :=
  l.map (fun c => if c == 'ى' then 'ي' else c)

/-- Step `re.sub(r'\s+', ' ', text)`: replace every maximal run of
whitespace by a single space. -/
def collapseWs : List Char → List Char
  | [] => []
  | c :: rest =>
    let tail := collapseWs rest
    if pyIsSpace c then
      if tail.head? = some ' ' then tail else ' ' :: tail
    else c :: tail

/-- The whole normalization pipeline of `arabic_normalize` on character
lists, in source order: NFKC, tatweel removal, alef folding, diacritic
removal, alef-maqsura folding, whitespace collapsing and stripping. -/
def normalizeCore (l : List Char) : List Char :=
  pyStripL (collapseWs (yafold (dediac (aleffold (detatweel (nfkcL l))))))

/-- Model of `arabic_normalize` (lines 165–174).  The source first coerces
non-string input with `str(...)` (and `None` to `""`); since every such
coercion yields a string, quantifying over `String` covers all inputs. -/
def arabic_normalize (s : String) : String := String.mk (normalizeCore s.data)

/-! ## Configuration constants (lines 28–39 of the source) -/

def DROP_UNMAPPED : Bool := false

def DEFAULT_MAP_TARGET : String := "normal"

def KEEP_ALL_COLUMNS : Bool := true

def ORIGINAL_TEXT_COL : String := "original_text"

def OUTPUT_PATH : String := "Merged_dataset.csv"

def PER_SOURCE_DIST_OUT : String := "merged_3class_per_source_distribution.csv"

def SUMMARY_JSON_OUT : String := "merged_3class_summary.json"

/-- The canonical label set (a Python `set` of three strings). -/
def CANONICAL_LABELS : List String := ["normal", "offensive", "profanity"]

/-! ## Label mapping (lines 44–101 and 176–202) -/

/-- A two-level label map: `source_name -> (raw_label -> canonical)`.
Python dicts with string keys; the literal in `get_label_map` has no
duplicate keys, so first-match association-list lookup models dict
lookup exactly. -/
abbrev LabelMap := List (String × List (String × String))

/-- The static label map returned by `get_label_map` (lines 59–101):
only the global `"all"` layer is populated. -/
def get_label_map : LabelMap :=
  [("all",
    [("Neutral", "normal"), ("Positive", "normal"), ("Negative", "offensive"),
     ("ADULT", "profanity"), ("NOT_ADULT", "normal"), ("no", "normal"),
     ("yes", "offensive"), ("neutral", "normal"), ("negative", "offensive"),
     ("positive", "normal"), ("offensive", "offensive"), ("not", "normal"),
     ("Offensive", "offensive"), ("non-offensive", "normal"),
     ("Non-offensive", "normal"), ("abusive", "profanity"),
     ("normal", "normal"), ("hate", "offensive"), ("Bullying", "offensive"),
     ("non-bullying", "normal"), ("none", "normal"), ("None", "normal"),
     ("HATE", "offensive"), ("OFFENSIVE", "offensive"), ("NORMAL", "normal"),
     ("", "normal"), ("cyber", "offensive"), ("not cyber", "normal")])]

/-- One layer of the lookup `key in label_map and lbl in label_map[key]`:
`some` exactly when both memberships hold. -/
def lookupLayer (lm : LabelMap) (key lbl : String) : Option String :=
  match lm.lookup key with
  | some tbl => tbl.lookup lbl
  | none => none

/-- Keyword fallback set mapped to `normal` (line 188). -/
def normalKeywords : List String :=
  ["0", "none", "neutral", "normal", "clean", "non"]

/-- Keyword fallback set mapped to `offensive` (line 190). -/
def offensiveKeywords : List String :=
  ["1", "offensive", "offence", "abusive", "hate", "abuse", "toxic", "insult"]

/-- Keyword fallback set mapped to `profanity` (line 192). -/
def profanityKeywords : List String :=
  ["2", "profanity", "swear", "swear_word", "vulgar", "obscene"]

/-- The final safety check of `map_label_for_row` (lines 199–202):
lowercase and strip the resolved value, coerce anything non-canonical to
the default target. -/
def finalizeLabel (mapped : String) : Option String :=
  let m := pyStrip (pyLower mapped)
  if m ∈ CANONICAL_LABELS then some m else some DEFAULT_MAP_TARGET

/-- The layered override lookup (lines 179–184): the per-source table
first, then the global `'all'` table, then the reserved `''` table. -/
def resolveOverride (lm : LabelMap) (src lbl : String) : Option String :=
  match lookupLayer lm src lbl with
  | some v => some v
  | none =>
    match lookupLayer lm "all" lbl with
    | some v => some v
    | none => lookupLayer lm "" lbl

/-- The full resolution of the `mapped` variable before the final safety
check (lines 178–193): the override layers, then — for non-empty trimmed
labels — the case-insensitive keyword heuristics. -/
def resolveLabel (lm : LabelMap) (src lbl : String) : Option String :=
  match resolveOverride lm src lbl with
  | some v => some v
  | none =>
    if lbl ≠ "" then
      let low := pyLower lbl
      if low ∈ normalKeywords then some "normal"
      else if low ∈ offensiveKeywords then some "offensive"
      else if low ∈ profanityKeywords then some "profanity"
      else none
    else none

/-- Model of `map_label_for_row` (lines 176–202).  The raw label is an
`Option String`: `none` models Python `None`; for other non-string values
the source's `str(...)` coercion produces a string, so quantifying over
strings covers them.  Returns `none` only on the drop path (line 196),
which is unreachable with the configured `DROP_UNMAPPED = False`. -/
def map_label_for_row (src : String) (lbl_raw : Option String)
    (label_map : LabelMap) : Option String :=
  let lbl := match lbl_raw with
    | none => ""
    | some s => pyStrip s
  match resolveLabel label_map src lbl with
  | none => if DROP_UNMAPPED then none else finalizeLabel DEFAULT_MAP_TARGET
  | some m => finalizeLabel m

/-! ## Tables and schema inference (lines 137–163) -/

/-- A loaded table: column names and string-typed rows (the loaders read
with `dtype=str`, coercing every cell to text).  Column names are assumed
distinct, as in every table pandas builds from a well-formed file. -/
structure RawTable where
  header : List String
  rows : List (List String)
deriving DecidableEq

def prefer_text_fields : List String :=
  ["text", "content", "tweet", "sentence", "comment", "post"]

def prefer_label_fields : List String :=
  ["label", "target", "class", "annotation", "y"]

def id_candidates : List String := ["id", "uid", "post_id", "tweet_id", "idx"]

/-- The dict comprehension `{c.lower(): c for c in df.columns}` (line 143):
later columns overwrite earlier ones, so lookup finds the last column with
the given lowercased name. -/
def colsLookup (header : List String) (k : String) : Option String :=
  ((header.map (fun c => (pyLower c, c))).reverse).lookup k

/-- First preference-list entry present among the lowercased column
names, returning the original column name. -/
def firstPreferred (prefs : List String) (header : List String) :
    Option String :=
  match prefs with
  | [] => none
  | p :: ps =>
    match colsLookup header p with
    | some c => some c
    | none => firstPreferred ps header

/-- Model of `canonicalize_columns` (lines 137–163): the text column falls
back to the first string-dtype column, which — with every cell coerced to
`str` by the loader — is the first column. -/
def canonicalize_columns (t : RawTable) :
    Option String × Option String × Option String :=
  let text_col :=
    match firstPreferred prefer_text_fields t.header with
    | some c => some c
    | none => t.header.head?
  (text_col, firstPreferred prefer_label_fields t.header,
   firstPreferred id_candidates t.header)

/-! ## Table loader (lines 115–124) -/

/-- Python exceptions the loader can produce. -/
inductive PyExc where
  | pandasError (msg : String)
  | runtimeNoActiveException
deriving DecidableEq

deriving instance DecidableEq for Except

/-- The message `str(e)` of a loader exception.  A bare `raise` executed
with no active exception raises `RuntimeError('No active exception to
reraise')`. -/
def excMessage : PyExc → String
  | .pandasError m => m
  | .runtimeNoActiveException => "No active exception to reraise"

/-- Model of the delimited-file branch of `safe_read_table` (lines
115–124).  `attempts` lists, in order, the outcome `pd.read_csv(path, sep,
encoding=enc, dtype=str)` would have for each of the encodings
`utf-8, utf-8-sig, latin1, cp1256`; reading is I/O, so those outcomes are
part of the input.  The loop returns the first success.  When every
attempt fails, the bare `raise` on line 124 executes with no active
exception — each `except` handler already exited via `continue`, clearing
the exception state — so the function raises `RuntimeError` carrying
neither the path nor any underlying cause. -/
def safe_read_table (path : String)
    (attempts : List (Except PyExc RawTable)) : Except PyExc RawTable :=
  match attempts with
  | [] => .error .runtimeNoActiveException
  | .ok t :: _ => .ok t
  | .error _ :: rest => safe_read_table path rest

/-! ## Merge orchestrator (lines 207–305) -/

/-- Characters of a POSIX path after the last `/` (`os.path.basename`). -/
def basenameL (l : List Char) : List Char :=
  (l.reverse.takeWhile (fun c => c != '/')).reverse

/-- Model of `os.path.splitext(b)[0]`: drop the suffix from the last dot,
unless every character before that dot is itself a dot. -/
def splitextStemL (b : List Char) : List Char :=
  if b.contains '.' then
    let tail := b.reverse.takeWhile (fun c => c != '.')
    let stem := b.take (b.length - tail.length - 1)
    if stem.any (fun c => c != '.') then stem else b
  else b

/-- The `source` identifier of a file:
`os.path.splitext(os.path.basename(fpath))[0]` (line 220). -/
def stemOf (path : String) : String :=
  String.mk (splitextStemL (basenameL path.data))

/-- A discovered source file as the per-file loop observes it: its path
and the outcome of `safe_read_table` on it. -/
structure SrcFile where
  path : String
  load : Except PyExc RawTable

/-- The table after the column-materialization steps (lines 226–237):
a `__no_label__` column of empty strings is appended when no label column
was inferred, then an `_auto_idx_` column holding the stringified
zero-based row index when no id column was inferred.  The `astype(str)`
and `fillna('')` calls are identities on the already string-typed cells. -/
structure EffTable where
  header : List String
  rows : List (List String)
  text_col : String
  label_col : String
  id_col : String

/-- Build the effective table from the inferred column roles. -/
def effTableOf (t : RawTable) (tc : String) (lc ic : Option String) :
    EffTable :=
  { header := t.header ++ (if lc.isNone then ["__no_label__"] else []) ++
      (if ic.isNone then ["_auto_idx_"] else []),
    rows := t.rows.enum.map (fun p =>
      p.2 ++ (if lc.isNone then [""] else []) ++
        (if ic.isNone then [toString p.1] else [])),
    text_col := tc,
    label_col := lc.getD "__no_label__",
    id_col := ic.getD "_auto_idx_" }

/-- Cell access `row[col]` given the header (first matching column). -/
def cellOf (header row : List String) (col : String) : String :=
  ((header.zip row).lookup col).getD ""

/-- One output row (the dict built on lines 249–260). -/
structure MergedRow where
  global_id : String
  source : String
  text : String
  label_orig : String
  label : String
  orig : List (String × String)
deriving DecidableEq

/-- The per-row loop of `merge_all` (lines 240–262): map the label, skip
the row when the mapper drops it, normalize the text, build the row dict,
and — with `KEEP_ALL_COLUMNS` — carry one `orig__<col>` audit value per
column of the effective table. -/
def buildRows (src : String) (e : EffTable) : List MergedRow :=
  e.rows.filterMap (fun row =>
    let raw_text := cellOf e.header row e.text_col
    let raw_label := cellOf e.header row e.label_col
    match map_label_for_row src (some raw_label) get_label_map with
    | none => none
    | some mapped =>
      some { global_id := src ++ "_" ++ cellOf e.header row e.id_col,
             source := src,
             text := arabic_normalize raw_text,
             label_orig := raw_label,
             label := mapped,
             orig := if KEEP_ALL_COLUMNS then
                 e.header.map (fun col => ("orig__" ++ col, cellOf e.header row col))
               else [] })

/-- The rows `merge_all` collects from one file: none when the load
failed or no text-like column was found. -/
def fileRows (f : SrcFile) : List MergedRow :=
  match f.load with
  | .error _ => []
  | .ok t =>
    match canonicalize_columns t with
    | (none, _, _) => []
    | (some tc, lc, ic) => buildRows (stemOf f.path) (effTableOf t tc lc ic)

/-- Whether a file survives both skip checks (load + text column). -/
def filePasses (f : SrcFile) : Bool :=
  match f.load with
  | .error _ => false
  | .ok t => (canonicalize_columns t).1.isSome

/-- Python dict assignment `d[k] = v`: update in place if the key exists
(keeping insertion order), else append. -/
def dictInsertNat (m : List (String × Nat)) (k : String) (v : Nat) :
    List (String × Nat) :=
  if m.any (fun p => p.1 == k) then
    m.map (fun p => if p.1 == k then (k, v) else p)
  else m ++ [(k, v)]

/-- The orchestrator's accumulators (lines 212–213 and the log stream). -/
structure LoopState where
  all_rows : List MergedRow
  per_file_counts : List (String × Nat)
  logs : List String

/-- The per-file loop of `merge_all` (lines 214–266).  Log entries model
the `print` calls; the informational duplicate-count print is omitted as
no claim concerns it. -/
def mergeLoop (st : LoopState) : List SrcFile → LoopState
  | [] => st
  | f :: rest =>
    match f.load with
    | .error e =>
      mergeLoop { st with logs := st.logs ++
        ["[WARN] Could not read " ++ f.path ++ ": " ++ excMessage e ++
         "; skipping."] } rest
    | .ok t =>
      match canonicalize_columns t with
      | (none, _, _) =>
        mergeLoop { st with logs := st.logs ++
          ["[WARN] No text-like column in " ++ f.path ++ "; skipping."] } rest
      | (some tc, lc, ic) =>
        let fname := stemOf f.path
        let rows_from_file := buildRows fname (effTableOf t tc lc ic)
        mergeLoop { all_rows := st.all_rows ++ rows_from_file,
                    per_file_counts := dictInsertNat st.per_file_counts fname
                      rows_from_file.length,
                    logs := st.logs ++
                      ["Processed " ++ f.path ++ " -> collected " ++
                       toString rows_from_file.length ++ " rows"] } rest

/-- The stray-label re-validation (lines 279–282): if any collected label
is non-canonical, coerce exactly those labels to the default target. -/
def remapBad (rows : List MergedRow) : List MergedRow :=
  if rows.any (fun r => !(CANONICAL_LABELS.contains r.label)) then
    rows.map (fun r =>
      if CANONICAL_LABELS.contains r.label then r
      else { r with label := DEFAULT_MAP_TARGET })
  else rows

/-- The column-to-value dict of one merged row, in construction order. -/
def rowDict (r : MergedRow) : List (String × String) :=
  [("global_id", r.global_id), ("source", r.source), ("text", r.text),
   ("label_orig", r.label_orig), ("label", r.label)] ++ r.orig

/-- The check `ORIGINAL_TEXT_COL not in merged.columns` (line 284): the
merged frame's columns are the union of the row dicts' keys. -/
def mergedHasOriginalTextCol (rows : List MergedRow) : Bool :=
  rows.any (fun r => (rowDict r).any (fun p => p.1 == ORIGINAL_TEXT_COL))

/-- The merged table as written (lines 284–287): when no `original_text`
column exists, one is added holding `merged['text']` — the normalized
text column. -/
def writtenRows (rows : List MergedRow) : List (List (String × String)) :=
  if mergedHasOriginalTextCol rows then rows.map rowDict
  else rows.map (fun r => rowDict r ++ [(ORIGINAL_TEXT_COL, r.text)])

/-- Sources in first-appearance order. -/
def distinctSources (rows : List MergedRow) : List String :=
  rows.foldl (fun acc r =>
    if acc.contains r.source then acc else acc ++ [r.source]) []

/-- Labels in first-appearance order. -/
def distinctLabels (rows : List MergedRow) : List String :=
  rows.foldl (fun acc r =>
    if acc.contains r.label then acc else acc ++ [r.label]) []

/-- Per-source label distribution (lines 290–293): per source, the count
of each canonical label and a row total.  No claim depends on this
artifact's internal ordering, so pandas' group-key/total sorting is not
modelled. -/
def perSourceDist (rows : List MergedRow) :
    List (String × List (String × Nat) × Nat) :=
  (distinctSources rows).map (fun s =>
    let srcRows := rows.filter (fun r => r.source == s)
    (s, CANONICAL_LABELS.map (fun lb =>
        (lb, (srcRows.filter (fun r => r.label == lb)).length)),
     srcRows.length))

/-- Overall label counts (`value_counts`, line 298); ordering by count is
not modelled as no claim depends on it. -/
def labelCounts (rows : List MergedRow) : List (String × Nat) :=
  (distinctLabels rows).map (fun lb =>
    (lb, (rows.filter (fun r => r.label == lb)).length))

/-- The run summary written as JSON (lines 296–302). -/
structure Summary where
  rows : Nat
  label_counts : List (String × Nat)
  files_processed_counts : List (String × Nat)
deriving DecidableEq

/-- The three output artifacts of a successful run. -/
structure RunArtifacts where
  merged : List (List (String × String))
  per_source_dist : List (String × List (String × Nat) × Nat)
  summary : Summary

/-- Outcome of `merge_all`: the log stream, the list of output paths
written (in write order), and either the artifacts or the fatal error. -/
structure MergeResult where
  logs : List String
  written : List String
  result : Except String RunArtifacts

/-- Model of `merge_all` (lines 207–305).  The file list stands for
`find_files(INPUT_DIR)` together with each file's load outcome.  The
fatal zero-row check (lines 268–269) runs before any artifact is
written; the ok branch writes the merged CSV, the distribution CSV and
the summary JSON, in that order. -/
def merge_all (files : List SrcFile) : MergeResult :=
  let st := mergeLoop ⟨[], [], []⟩ files
  if st.all_rows.length = 0 then
    { logs := st.logs, written := [],
      result := .error "No rows collected. Check INPUT_DIR and LABEL_MAP." }
  else
    let merged := remapBad st.all_rows
    { logs := st.logs,
      written := [OUTPUT_PATH, PER_SOURCE_DIST_OUT, SUMMARY_JSON_OUT],
      result := .ok
        { merged := writtenRows merged,
          per_source_dist := perSourceDist merged,
          summary := { rows := merged.length,
                       label_counts := labelCounts merged,
                       files_processed_counts := st.per_file_counts } } }

/-- The `global_id` column of the written merged table. -/
def mergedGlobalIds (m : MergeResult) : List String :=
  match m.result with
  | .error _ => []
  | .ok a => a.merged.filterMap (fun row => row.lookup "global_id")

/-- The log line one file contributes to the per-file loop. -/
def fileLog (f : SrcFile) : String :=
  match f.load with
  | .error e =>
    "[WARN] Could not read " ++ f.path ++ ": " ++ excMessage e ++ "; skipping."
  | .ok t =>
    match canonicalize_columns t with
    | (none, _, _) => "[WARN] No text-like column in " ++ f.path ++ "; skipping."
    | (some tc, lc, ic) =>
      "Processed " ++ f.path ++ " -> collected " ++
        toString (buildRows (stemOf f.path) (effTableOf t tc lc ic)).length ++
        " rows"

/-- The per-file-counts update one file contributes: passing files upsert
their stem's entry, skipped files leave the dict untouched. -/
def countsStep (m : List (String × Nat)) (f : SrcFile) : List (String × Nat) :=
  if filePasses f then dictInsertNat m (stemOf f.path) (fileRows f).length
  else m

/-- The stems recorded in the run summary's per-file counts (empty when
the run aborted). -/
def summaryKeys (m : MergeResult) : List String :=
  match m.result with
  | .error _ => []
  | .ok a => a.summary.files_processed_counts.map Prod.fst

/-- The ids the per-row loop uses for one file: the natural id column's
values when one was inferred, else the stringified positional index. -/
def fileIds (f : SrcFile) : List String :=
  match f.load with
  | .error _ => []
  | .ok t =>
    match canonicalize_columns t with
    | (none, _, _) => []
    | (some tc, lc, ic) =>
      let e := effTableOf t tc lc ic
      e.rows.map (fun row => cellOf e.header row e.id_col)

end Merge


namespace Merge

/-! ## Helper lemmas for the label mapper -/

/-- The final safety check always yields some canonical label. -/
theorem finalizeLabel_total (m : String) :
    ∃ v, finalizeLabel m = some v ∧ v ∈ CANONICAL_LABELS := by
  unfold finalizeLabel
  by_cases h : pyStrip (pyLower m) ∈ CANONICAL_LABELS
  · exact ⟨pyStrip (pyLower m), by simp [h], h⟩
  · exact ⟨DEFAULT_MAP_TARGET, by simp [h], by decide⟩

/-- The final safety check is the identity on canonical labels. -/
theorem finalizeLabel_canon (v : String) (h : v ∈ CANONICAL_LABELS) :
    finalizeLabel v = some v := by
  simp only [CANONICAL_LABELS, List.mem_cons, List.mem_singleton,
    List.not_mem_nil, or_false] at h
  rcases h with h | h | h <;> subst h <;> decide

/-- The label mapper always produces some canonical label. -/
theorem map_label_total (src : String) (lbl_raw : Option String)
    (lm : LabelMap) :
    ∃ v, map_label_for_row src lbl_raw lm = some v ∧ v ∈ CANONICAL_LABELS := by
  unfold map_label_for_row
  rcases lbl_raw with _ | s
  · cases h : resolveLabel lm src "" with
    | none => simp [h, DROP_UNMAPPED]; exact finalizeLabel_total _
    | some m => simp [h]; exact finalizeLabel_total m
  · cases h : resolveLabel lm src (pyStrip s) with
    | none => simp [h, DROP_UNMAPPED]; exact finalizeLabel_total _
    | some m => simp [h]; exact finalizeLabel_total m

/-- Claim C2: for every source identifier and every raw label value
(including the missing/`None` case and arbitrary strings), and for every
label map with string-valued tables, `map_label_for_row` returns one of
the three canonical labels `normal`, `offensive`, `profanity`; it never
fails and never yields any other observable output. -/
theorem claim_C2_label_mapper_total (src : String) (lbl_raw : Option String)
    (lm : LabelMap) :
    map_label_for_row src lbl_raw lm = some "normal" ∨
    map_label_for_row src lbl_raw lm = some "offensive" ∨
    map_label_for_row src lbl_raw lm = some "profanity" := by
  obtain ⟨v, hv, hm⟩ := map_label_total src lbl_raw lm
  simp only [CANONICAL_LABELS, List.mem_cons, List.mem_singleton,
    List.not_mem_nil, or_false] at hm
  rcases hm with h | h | h <;> subst h <;> simp [hv]

/-- Claim C3: a trimmed raw label found in the per-source override table
is mapped to exactly the configured canonical value, and when the
per-source layer has no match, a hit in the global `'all'` table is
returned — so a per-source entry takes precedence over a global one. -/
theorem claim_C3_override_precedence (lm : LabelMap) (src raw v : String)
    (hv : v ∈ CANONICAL_LABELS) :
    (lookupLayer lm src (pyStrip raw) = some v →
        map_label_for_row src (some raw) lm = some v) ∧
    (lookupLayer lm src (pyStrip raw) = none →
        lookupLayer lm "all" (pyStrip raw) = some v →
        map_label_for_row src (some raw) lm = some v) := by
  constructor
  · intro h1
    simp [map_label_for_row, resolveLabel, resolveOverride, h1,
      finalizeLabel_canon v hv]
  · intro h0 h1
    simp [map_label_for_row, resolveLabel, resolveOverride, h0, h1,
      finalizeLabel_canon v hv]

/-- Witness for claim C3: with a per-source table mapping `spam` to
`profanity` and a global table mapping the same raw label to `normal`,
the per-source value wins; and a label only in the global table resolves
through it. -/
theorem claim_C3_witness :
    map_label_for_row "D1" (some " spam ")
        [("D1", [("spam", "profanity")]),
         ("all", [("spam", "normal"), ("x", "offensive")])] =
      some "profanity" ∧
    map_label_for_row "Z" (some "x")
        [("D1", [("spam", "profanity")]),
         ("all", [("spam", "normal"), ("x", "offensive")])] =
      some "offensive" :=
  ⟨(claim_C3_override_precedence
      [("D1", [("spam", "profanity")]),
       ("all", [("spam", "normal"), ("x", "offensive")])]
      "D1" " spam " "profanity" (by decide)).1 (by decide),
   (claim_C3_override_precedence
      [("D1", [("spam", "profanity")]),
       ("all", [("spam", "normal"), ("x", "offensive")])]
      "Z" "x" "offensive" (by decide)).2 (by decide) (by decide)⟩

/-- Claim C9: normalizing the three alef variants with hamza below, hamza
above, and madda yields three bare alefs. -/
theorem claim_C9_alef_folding : arabic_normalize "إأآ" = "ااا" := by decide

/-- Claim C5 counterexample: `arabic_normalize` is not idempotent.  On
`"s" ++ tatweel ++ combining-dot-above` (U+0073 U+0640 U+0307), NFKC
leaves the input unchanged (the tatweel blocks composition) and tatweel
removal then yields `"s" ++ U+0307`; a second application's NFKC composes
that pair into `"ṡ"` (U+1E61), a different string. -/
theorem claim_C5_counterexample :
    arabic_normalize (arabic_normalize "sـ̇") ≠ arabic_normalize "sـ̇" := by
  decide

/-- Claim C4 (code bug): the written `original_text` column holds the
normalized text — line 285 copies `merged['text']` after normalization —
so for a file whose only text cell is `"أ"` the persisted
`original_text` is `"ا"`, not the pre-normalization `"أ"`. -/
theorem claim_C4_original_text_is_normalized :
    (match (merge_all [⟨"f.csv", .ok ⟨["text"], [["أ"]]⟩⟩]).result with
     | .ok a => a.merged.head?.bind (fun row => row.lookup "original_text")
     | .error _ => none) = some (arabic_normalize "أ") ∧
    arabic_normalize "أ" = "ا" ∧ ("ا" : String) ≠ "أ" := by decide

/-- Claim C7 counterexample: when every encoding attempt fails, the
loader's bare `raise` produces the same bare `RuntimeError` value whatever
the path and whatever the underlying causes were — the error names
neither the file nor the last cause. -/
theorem claim_C7_counterexample :
    safe_read_table "A.csv"
        [.error (.pandasError "ParserError: a"),
         .error (.pandasError "ParserError: b"),
         .error (.pandasError "ParserError: c"),
         .error (.pandasError "ParserError: d")] =
      .error .runtimeNoActiveException ∧
    safe_read_table "B.csv"
        [.error (.pandasError "EmptyDataError: w"),
         .error (.pandasError "EmptyDataError: x"),
         .error (.pandasError "EmptyDataError: y"),
         .error (.pandasError "EmptyDataError: z")] =
      .error .runtimeNoActiveException ∧
    excMessage .runtimeNoActiveException =
      "No active exception to reraise" := by decide

/-- Claim C8 counterexample: a file skipped because loading failed gets
no zero-count entry in the run summary — the per-file counts of a run
over a failing `bad.csv` and a one-row `good.csv` mention only `good`. -/
theorem claim_C8_counterexample :
    (match (merge_all
        [⟨"bad.csv", .error (.pandasError "no encoding worked")⟩,
         ⟨"good.csv", .ok ⟨["text"], [["hello"]]⟩⟩]).result with
     | .ok a => a.summary.files_processed_counts
     | .error _ => [("absent", 0)]) = [("good", 1)] := by decide

/-- Claim C1 counterexample: `merge_all` can emit duplicate `global_id`
values in three ways — a natural id column with repeated values; two
files with the same stem (`a.csv` and `a.tsv`); and underscores in
natural ids making the `source + '_' + id` concatenation collide across
files (`a` with id `b_0` versus `a_b` with id `0`). -/
theorem claim_C1_counterexample :
    ¬ (mergedGlobalIds (merge_all
        [⟨"All_datasets/d.csv",
          .ok ⟨["text", "id"], [["x", "7"], ["y", "7"]]⟩⟩])).Nodup ∧
    ¬ (mergedGlobalIds (merge_all
        [⟨"a.csv", .ok ⟨["text"], [["x"]]⟩⟩,
         ⟨"a.tsv", .ok ⟨["text"], [["y"]]⟩⟩])).Nodup ∧
    ¬ (mergedGlobalIds (merge_all
        [⟨"a.csv", .ok ⟨["text", "id"], [["x", "b_0"]]⟩⟩,
         ⟨"a_b.csv", .ok ⟨["text", "id"], [["y", "0"]]⟩⟩])).Nodup := by decide

end Merge

namespace Merge

/-- Characterization of the per-file loop: rows, logs and per-file counts
accumulate file by file. -/
theorem mergeLoop_spec (files : List SrcFile) (st : LoopState) :
    (mergeLoop st files).all_rows = st.all_rows ++ files.flatMap fileRows ∧
    (mergeLoop st files).logs = st.logs ++ files.map fileLog ∧
    (mergeLoop st files).per_file_counts =
      files.foldl countsStep st.per_file_counts := by
  induction files generalizing st with
  | nil => simp [mergeLoop]
  | cons f rest ih =>
    cases hl : f.load with
    | error e =>
      simp only [mergeLoop, hl]
      have h := ih ({ st with logs := st.logs ++
        ["[WARN] Could not read " ++ f.path ++ ": " ++ excMessage e ++
         "; skipping."] })
      refine ⟨?_, ?_, ?_⟩
      · rw [h.1]; simp [fileRows, hl]
      · rw [h.2.1]; simp [fileLog, hl]
      · rw [h.2.2]; simp [countsStep, filePasses, hl]
    | ok t =>
      rcases hc : canonicalize_columns t with ⟨tc, lc, ic⟩
      cases tc with
      | none =>
        simp only [mergeLoop, hl, hc]
        have h := ih ({ st with logs := st.logs ++
          ["[WARN] No text-like column in " ++ f.path ++ "; skipping."] })
        refine ⟨?_, ?_, ?_⟩
        · rw [h.1]; simp [fileRows, hl, hc]
        · rw [h.2.1]; simp [fileLog, hl, hc]
        · rw [h.2.2]; simp [countsStep, filePasses, hl, hc]
      | some tcol =>
        simp only [mergeLoop, hl, hc]
        have h := ih
          ({ all_rows := st.all_rows ++
              buildRows (stemOf f.path) (effTableOf t tcol lc ic),
             per_file_counts := dictInsertNat st.per_file_counts
               (stemOf f.path)
               (buildRows (stemOf f.path) (effTableOf t tcol lc ic)).length,
             logs := st.logs ++
               ["Processed " ++ f.path ++ " -> collected " ++
                toString (buildRows (stemOf f.path)
                  (effTableOf t tcol lc ic)).length ++ " rows"] })
        refine ⟨?_, ?_, ?_⟩
        · rw [h.1]; simp [fileRows, hl, hc]
        · rw [h.2.1]; simp [fileLog, hl, hc]
        · rw [h.2.2]; simp [countsStep, filePasses, fileRows, hl, hc]

end Merge

namespace Merge

/-- Claim C6: if zero rows are collected across all discovered files —
for example the directory is empty or every file fails to load or lacks a
text column — `merge_all` fails with the fatal error and writes none of
the three output artifacts. -/
theorem claim_C6_empty_run_fatal (files : List SrcFile)
    (h : files.flatMap fileRows = []) :
    (merge_all files).result =
      .error "No rows collected. Check INPUT_DIR and LABEL_MAP." ∧
    (merge_all files).written = [] := by
  have hs := (mergeLoop_spec files ⟨[], [], []⟩).1
  simp only [List.nil_append] at hs
  rw [h] at hs
  constructor <;> simp [merge_all, hs]

/-- Witness for claim C6: a run over a single unreadable file collects
zero rows, aborts with the fatal error, and writes nothing. -/
theorem claim_C6_witness :
    ([(⟨"bad.csv", .error (.pandasError "EmptyDataError")⟩ : SrcFile)]
        |>.flatMap fileRows) = [] ∧
    ((merge_all [⟨"bad.csv", .error (.pandasError "EmptyDataError")⟩]).result =
        .error "No rows collected. Check INPUT_DIR and LABEL_MAP." ∧
     (merge_all [⟨"bad.csv", .error (.pandasError "EmptyDataError")⟩]).written =
        []) :=
  ⟨by decide,
   claim_C6_empty_run_fatal
     [⟨"bad.csv", .error (.pandasError "EmptyDataError")⟩] (by decide)⟩

/-- Claim C7 (amended): when every encoding attempt fails, the delimited
loader raises the bare `RuntimeError` (naming neither the file nor the
last cause — see the counterexample); the orchestrator catches it, logs a
warning that names the file, and skips only that file: the rows collected
are exactly those of the same run without it. -/
theorem claim_C7_amended (p : String)
    (attempts : List (Except PyExc RawTable))
    (hfail : ∀ a ∈ attempts, a.isOk = false)
    (pre post : List SrcFile) :
    safe_read_table p attempts = .error .runtimeNoActiveException ∧
    ("[WARN] Could not read " ++ p ++ ": " ++
        excMessage PyExc.runtimeNoActiveException ++ "; skipping.")
      ∈ (merge_all (pre ++ ⟨p, safe_read_table p attempts⟩ :: post)).logs ∧
    (pre ++ (⟨p, safe_read_table p attempts⟩ : SrcFile) :: post).flatMap
        fileRows = (pre ++ post).flatMap fileRows := by
  have hraise : safe_read_table p attempts =
      .error .runtimeNoActiveException := by
    induction attempts with
    | nil => rfl
    | cons a rest ih =>
      cases a with
      | ok t =>
        have := hfail (Except.ok t) (List.mem_cons_self _ _)
        simp [Except.isOk, Except.toBool] at this
      | error e =>
        rw [safe_read_table]
        exact ih (fun a ha => hfail a (List.mem_cons_of_mem _ ha))
  have hml : (merge_all (pre ++ ⟨p, safe_read_table p attempts⟩ ::
      post)).logs = (mergeLoop ⟨[], [], []⟩
        (pre ++ ⟨p, safe_read_table p attempts⟩ :: post)).logs := by
    unfold merge_all
    by_cases hc : (mergeLoop ⟨[], [], []⟩
        (pre ++ ⟨p, safe_read_table p attempts⟩ :: post)).all_rows.length = 0
    · simp [hc]
    · simp [hc]
  refine ⟨hraise, ?_, ?_⟩
  · have hlogs := (mergeLoop_spec (pre ++ ⟨p, safe_read_table p attempts⟩ ::
      post) ⟨[], [], []⟩).2.1
    rw [hml, hlogs]
    simp only [List.nil_append, List.map_append, List.map_cons]
    refine List.mem_append.mpr (Or.inr ?_)
    refine List.mem_cons.mpr (Or.inl ?_)
    simp [fileLog, hraise]
  · simp [fileRows, hraise]

/-- Witness for claim C7's amended theorem: a concrete four-encoding
failure on `bad.csv` next to a readable `good.csv`. -/
theorem claim_C7_witness :
    (∀ a ∈ ([Except.error (PyExc.pandasError "EmptyDataError"),
        Except.error (PyExc.pandasError "EmptyDataError"),
        Except.error (PyExc.pandasError "EmptyDataError"),
        Except.error (PyExc.pandasError "EmptyDataError")] :
          List (Except PyExc RawTable)), a.isOk = false) ∧
    (safe_read_table "bad.csv"
        [Except.error (PyExc.pandasError "EmptyDataError"),
         Except.error (PyExc.pandasError "EmptyDataError"),
         Except.error (PyExc.pandasError "EmptyDataError"),
         Except.error (PyExc.pandasError "EmptyDataError")] =
      .error .runtimeNoActiveException ∧
     ("[WARN] Could not read " ++ "bad.csv" ++ ": " ++
        excMessage PyExc.runtimeNoActiveException ++ "; skipping.")
       ∈ (merge_all ([] ++ SrcFile.mk "bad.csv" (safe_read_table "bad.csv"
           [Except.error (PyExc.pandasError "EmptyDataError"),
            Except.error (PyExc.pandasError "EmptyDataError"),
            Except.error (PyExc.pandasError "EmptyDataError"),
            Except.error (PyExc.pandasError "EmptyDataError")]) ::
           [SrcFile.mk "good.csv" (Except.ok
              (RawTable.mk ["text"] [["hello"]]))])).logs ∧
     ([] ++ SrcFile.mk "bad.csv" (safe_read_table "bad.csv"
         [Except.error (PyExc.pandasError "EmptyDataError"),
          Except.error (PyExc.pandasError "EmptyDataError"),
          Except.error (PyExc.pandasError "EmptyDataError"),
          Except.error (PyExc.pandasError "EmptyDataError")]) ::
         [SrcFile.mk "good.csv" (Except.ok
            (RawTable.mk ["text"] [["hello"]]))]).flatMap fileRows =
       ([] ++ [SrcFile.mk "good.csv" (Except.ok
          (RawTable.mk ["text"] [["hello"]]))]).flatMap fileRows) :=
  ⟨by decide,
   claim_C7_amended "bad.csv"
     [Except.error (PyExc.pandasError "EmptyDataError"),
      Except.error (PyExc.pandasError "EmptyDataError"),
      Except.error (PyExc.pandasError "EmptyDataError"),
      Except.error (PyExc.pandasError "EmptyDataError")] (by decide)
     [] [SrcFile.mk "good.csv" (Except.ok (RawTable.mk ["text"] [["hello"]]))]⟩

end Merge

namespace Merge

/-- Key membership after a Python-dict upsert: the inserted key joins the
existing ones. -/
theorem mem_keys_dictInsertNat (m : List (String × Nat)) (k : String)
    (v : Nat) (s : String) :
    s ∈ (dictInsertNat m k v).map Prod.fst ↔
      s = k ∨ s ∈ m.map Prod.fst := by
  unfold dictInsertNat
  split
  next hany =>
    rw [List.any_eq_true] at hany
    obtain ⟨q, hq, hqk⟩ := hany
    rw [beq_iff_eq] at hqk
    simp only [List.map_map, List.mem_map, Function.comp]
    constructor
    · rintro ⟨p, hp, hs⟩
      by_cases h : p.1 = k
      · simp [h] at hs
        exact Or.inl hs.symm
      · rw [if_neg (by simpa using h)] at hs
        exact Or.inr ⟨p, hp, hs⟩
    · rintro (rfl | hs)
      · exact ⟨q, hq, by simp [hqk]⟩
      · obtain ⟨p, hp, hps⟩ := hs
        subst hps
        by_cases h : p.1 = k
        · exact ⟨p, hp, by simp [h]⟩
        · exact ⟨p, hp, by simp [h]⟩
  next hany =>
    simp [or_comm]

/-- Key membership across the per-file-counts fold: a stem is recorded
iff a passing file put it there or it was already present. -/
theorem mem_keys_foldl_countsStep (files : List SrcFile)
    (m : List (String × Nat)) (s : String) :
    s ∈ (files.foldl countsStep m).map Prod.fst ↔
      s ∈ m.map Prod.fst ∨
        ∃ f ∈ files, filePasses f = true ∧ stemOf f.path = s := by
  induction files generalizing m with
  | nil => simp
  | cons f rest ih =>
    rw [List.foldl_cons, ih]
    unfold countsStep
    by_cases hp : filePasses f = true
    · rw [if_pos hp, mem_keys_dictInsertNat]
      constructor
      · rintro ((rfl | hm) | hr)
        · exact Or.inr ⟨f, List.mem_cons_self _ _, hp, rfl⟩
        · exact Or.inl hm
        · obtain ⟨g, hg, hgp, hgs⟩ := hr
          exact Or.inr ⟨g, List.mem_cons_of_mem _ hg, hgp, hgs⟩
      · rintro (hm | ⟨g, hg, hgp, hgs⟩)
        · exact Or.inl (Or.inr hm)
        · rcases List.mem_cons.mp hg with rfl | hg'
          · exact Or.inl (Or.inl hgs.symm)
          · exact Or.inr ⟨g, hg', hgp, hgs⟩
    · rw [if_neg hp]
      constructor
      · rintro (hm | ⟨g, hg, hgp, hgs⟩)
        · exact Or.inl hm
        · exact Or.inr ⟨g, List.mem_cons_of_mem _ hg, hgp, hgs⟩
      · rintro (hm | ⟨g, hg, hgp, hgs⟩)
        · exact Or.inl hm
        · rcases List.mem_cons.mp hg with rfl | hg'
          · exact absurd hgp hp
          · exact Or.inr ⟨g, hg', hgp, hgs⟩

/-- Claim C8 (amended): for a run that succeeds (some row was collected),
the summary's per-source-file counts contain an entry for a stem iff some
discovered file with that stem both loaded successfully and had a usable
text column.  Files skipped because loading failed or because no text
column was found contribute no zero-count entry (the counterexample shows
one missing). -/
theorem claim_C8_amended (files : List SrcFile)
    (h : files.flatMap fileRows ≠ []) (s : String) :
    s ∈ summaryKeys (merge_all files) ↔
      ∃ f ∈ files, filePasses f = true ∧ stemOf f.path = s := by
  have hs := mergeLoop_spec files ⟨[], [], []⟩
  have hrows := hs.1
  simp only [List.nil_append] at hrows
  have hlen : (mergeLoop ⟨[], [], []⟩ files).all_rows.length ≠ 0 := by
    rw [hrows]
    exact fun hlen0 => h (List.length_eq_zero.mp hlen0)
  have hkeys : summaryKeys (merge_all files) =
      (mergeLoop ⟨[], [], []⟩ files).per_file_counts.map Prod.fst := by
    unfold merge_all summaryKeys
    simp [hlen]
  rw [hkeys, hs.2.2]
  rw [mem_keys_foldl_countsStep]
  simp

/-- Witness for claim C8's amended theorem: in a run over a failing
`bad.csv` and a one-row `good.csv`, the stem `good` is recorded iff a
passing file carries it — and `good.csv` indeed passes. -/
theorem claim_C8_witness :
    (([SrcFile.mk "bad.csv" (Except.error (PyExc.pandasError "boom")),
       SrcFile.mk "good.csv" (Except.ok (RawTable.mk ["text"] [["hello"]]))]
        |>.flatMap fileRows) ≠ []) ∧
    ("good" ∈ summaryKeys (merge_all
        [SrcFile.mk "bad.csv" (Except.error (PyExc.pandasError "boom")),
         SrcFile.mk "good.csv"
           (Except.ok (RawTable.mk ["text"] [["hello"]]))]) ↔
      ∃ f ∈ [SrcFile.mk "bad.csv" (Except.error (PyExc.pandasError "boom")),
             SrcFile.mk "good.csv"
               (Except.ok (RawTable.mk ["text"] [["hello"]]))],
        filePasses f = true ∧ stemOf f.path = "good") :=
  ⟨by decide,
   claim_C8_amended
     [SrcFile.mk "bad.csv" (Except.error (PyExc.pandasError "boom")),
      SrcFile.mk "good.csv" (Except.ok (RawTable.mk ["text"] [["hello"]]))]
     (by decide) "good"⟩

end Merge

namespace Merge

/-! ## Character-level lemmas about the normalizer -/

/-- Stripping only removes characters. -/
theorem mem_pyStripL {c : Char} {l : List Char} (h : c ∈ pyStripL l) :
    c ∈ l := by
  unfold pyStripL at h
  rw [List.mem_reverse] at h
  have h1 := (List.dropWhile_sublist _).subset h
  rw [List.mem_reverse] at h1
  exact (List.dropWhile_sublist _).subset h1

/-- Whitespace collapsing only introduces plain spaces. -/
theorem mem_collapseWs {c : Char} {l : List Char} (h : c ∈ collapseWs l) :
    c = ' ' ∨ c ∈ l := by
  induction l with
  | nil => simp [collapseWs] at h
  | cons d rest ih =>
    simp only [collapseWs] at h
    by_cases hd : pyIsSpace d
    · rw [if_pos hd] at h
      by_cases hh : (collapseWs rest).head? = some ' '
      · rw [if_pos hh] at h
        rcases ih h with h' | h'
        · exact Or.inl h'
        · exact Or.inr (List.mem_cons_of_mem _ h')
      · rw [if_neg hh] at h
        rcases List.mem_cons.mp h with rfl | h'
        · exact Or.inl rfl
        · rcases ih h' with h'' | h''
          · exact Or.inl h''
          · exact Or.inr (List.mem_cons_of_mem _ h'')
    · rw [if_neg hd] at h
      rcases List.mem_cons.mp h with rfl | h'
      · exact Or.inr (List.mem_cons_self _ _)
      · rcases ih h' with h'' | h''
        · exact Or.inl h''
        · exact Or.inr (List.mem_cons_of_mem _ h'')

/-- Yeh folding only introduces yeh and removes every alef maqsura. -/
theorem mem_yafold {c : Char} {l : List Char} (h : c ∈ yafold l) :
    c = 'ي' ∨ (c ∈ l ∧ c ≠ 'ى') := by
  unfold yafold at h
  rw [List.mem_map] at h
  obtain ⟨d, hd, rfl⟩ := h
  by_cases hdy : d == 'ى'
  · rw [if_pos hdy]
    exact Or.inl rfl
  · rw [if_neg hdy]
    exact Or.inr ⟨hd, by simpa using hdy⟩

/-- Diacritic removal keeps only non-diacritics. -/
theorem mem_dediac {c : Char} {l : List Char} (h : c ∈ dediac l) :
    c ∈ l ∧ isArabDiac c = false := by
  unfold dediac at h
  rw [List.mem_filter] at h
  exact ⟨h.1, by simpa using h.2⟩

/-- Alef folding only introduces bare alef and removes every variant. -/
theorem mem_aleffold {c : Char} {l : List Char} (h : c ∈ aleffold l) :
    c = 'ا' ∨ (c ∈ l ∧ alefVariant c = false) := by
  unfold aleffold at h
  rw [List.mem_map] at h
  obtain ⟨d, hd, rfl⟩ := h
  by_cases hv : alefVariant d
  · rw [if_pos hv]
    exact Or.inl rfl
  · rw [if_neg hv]
    exact Or.inr ⟨hd, by simpa using hv⟩

/-- Tatweel removal keeps only non-tatweel characters. -/
theorem mem_detatweel {c : Char} {l : List Char} (h : c ∈ detatweel l) :
    c ∈ l ∧ c ≠ TATWEEL := by
  unfold detatweel at h
  rw [List.mem_filter] at h
  exact ⟨h.1, by simpa using h.2⟩

/-- Every character of a normalized string avoids the tatweel, the
diacritic ranges, the alef variants, and the alef maqsura. -/
theorem normalizeCore_chars {l : List Char} {c : Char}
    (h : c ∈ normalizeCore l) :
    c ≠ TATWEEL ∧ isArabDiac c = false ∧ alefVariant c = false ∧
      c ≠ 'ى' := by
  unfold normalizeCore at h
  have h1 := mem_pyStripL h
  rcases mem_collapseWs h1 with rfl | h2
  · exact ⟨by decide, by decide, by decide, by decide⟩
  rcases mem_yafold h2 with rfl | ⟨h3, hy⟩
  · exact ⟨by decide, by decide, by decide, by decide⟩
  obtain ⟨h4, hdiac⟩ := mem_dediac h3
  rcases mem_aleffold h4 with rfl | ⟨h5, hv⟩
  · exact ⟨by decide, by decide, by decide, by decide⟩
  obtain ⟨h6, htat⟩ := mem_detatweel h5
  exact ⟨htat, hdiac, hv, hy⟩

end Merge

namespace Merge

/-- Shape of `collapseWs` output: whitespace characters are plain spaces,
and no two adjacent characters are both whitespace. -/
theorem collapseWs_shape (l : List Char) :
    (∀ c ∈ collapseWs l, pyIsSpace c = true → c = ' ') ∧
    List.Chain' (fun a b => ¬(pyIsSpace a = true ∧ pyIsSpace b = true))
      (collapseWs l) := by
  induction l with
  | nil => simp [collapseWs]
  | cons d rest ih =>
    obtain ⟨ih1, ih2⟩ := ih
    simp only [collapseWs]
    by_cases hd : pyIsSpace d
    · rw [if_pos hd]
      by_cases hh : (collapseWs rest).head? = some ' '
      · rw [if_pos hh]
        exact ⟨ih1, ih2⟩
      · rw [if_neg hh]
        constructor
        · intro c hc hcs
          rcases List.mem_cons.mp hc with rfl | hc'
          · rfl
          · exact ih1 c hc' hcs
        · rw [List.chain'_cons']
          refine ⟨?_, ih2⟩
          intro b hb hcon
          have hbs := ih1 b (List.mem_of_mem_head? hb) hcon.2
          exact hh (hbs ▸ hb)
    · rw [if_neg hd]
      constructor
      · intro c hc hcs
        rcases List.mem_cons.mp hc with rfl | hc'
        · exact absurd hcs (by simp [hd])
        · exact ih1 c hc' hcs
      · rw [List.chain'_cons']
        refine ⟨?_, ih2⟩
        intro b hb hcon
        exact hd (by simpa using hcon.1)

/-- The head of a `dropWhile` result fails the predicate. -/
theorem head_dropWhile_eq_false {p : Char → Bool} {l : List Char}
    {c : Char} (h : (l.dropWhile p).head? = some c) : p c = false := by
  induction l with
  | nil => simp [List.dropWhile] at h
  | cons d rest ih =>
    rw [List.dropWhile_cons] at h
    by_cases hd : p d
    · rw [if_pos hd] at h
      exact ih h
    · rw [if_neg hd] at h
      simp only [List.head?_cons, Option.some.injEq] at h
      subst h
      simpa using hd

/-- A nonempty suffix shares its last element with the whole list. -/
theorem getLast?_of_suffix {l₁ l₂ : List Char} (h : l₂ <:+ l₁)
    (hne : l₂ ≠ []) : l₂.getLast? = l₁.getLast? := by
  obtain ⟨t, rfl⟩ := h
  exact (List.getLast?_append_of_ne_nil t hne).symm

/-- The first character of a stripped string is not whitespace. -/
theorem pyStripL_head {l : List Char} {c : Char}
    (h : (pyStripL l).head? = some c) : pyIsSpace c = false := by
  unfold pyStripL at h
  rw [List.head?_reverse] at h
  have hsuf := List.dropWhile_suffix
    (l := (l.dropWhile pyIsSpace).reverse) (p := pyIsSpace)
  have hne : ((l.dropWhile pyIsSpace).reverse.dropWhile pyIsSpace) ≠ [] := by
    intro hnil
    rw [hnil] at h
    simp at h
  rw [getLast?_of_suffix hsuf hne, List.getLast?_reverse] at h
  exact head_dropWhile_eq_false h

/-- The last character of a stripped string is not whitespace. -/
theorem pyStripL_last {l : List Char} {c : Char}
    (h : (pyStripL l).getLast? = some c) : pyIsSpace c = false := by
  unfold pyStripL at h
  rw [List.getLast?_reverse] at h
  exact head_dropWhile_eq_false h

/-- Stripping preserves any adjacency invariant. -/
theorem chain'_pyStripL {R : Char → Char → Prop} {l : List Char}
    (h : List.Chain' R l) : List.Chain' R (pyStripL l) := by
  unfold pyStripL
  rw [List.chain'_reverse]
  refine List.Chain'.suffix ?_ (List.dropWhile_suffix _)
  rw [List.chain'_reverse]
  exact List.Chain'.suffix h (List.dropWhile_suffix _)

end Merge

namespace Merge

/-- Claim C10: for every input, `arabic_normalize` returns a string with
no tatweel, no character of the diacritic ranges U+064B–U+065F / U+0670,
no alef maqsura, no leading or trailing whitespace, and no two adjacent
whitespace characters. -/
theorem claim_C10_normalizer_invariants (s : String) :
    (∀ c ∈ (arabic_normalize s).data,
        c ≠ TATWEEL ∧ isArabDiac c = false ∧ c ≠ 'ى') ∧
    (∀ c, (arabic_normalize s).data.head? = some c →
        pyIsSpace c = false) ∧
    (∀ c, (arabic_normalize s).data.getLast? = some c →
        pyIsSpace c = false) ∧
    List.Chain' (fun a b => ¬(pyIsSpace a = true ∧ pyIsSpace b = true))
      (arabic_normalize s).data := by
  have hdata : (arabic_normalize s).data = normalizeCore s.data := rfl
  rw [hdata]
  refine ⟨?_, ?_, ?_, ?_⟩
  · intro c hc
    obtain ⟨h1, h2, _, h4⟩ := normalizeCore_chars hc
    exact ⟨h1, h2, h4⟩
  · intro c hc
    exact pyStripL_head hc
  · intro c hc
    exact pyStripL_last hc
  · exact chain'_pyStripL (collapseWs_shape _).2

/-! ## Lemmas for the amended idempotence theorem -/

/-- Mapping a function that fixes every element is the identity. -/
theorem map_eq_self_of {α : Type} {f : α → α} {l : List α}
    (h : ∀ a ∈ l, f a = a) : l.map f = l := by
  induction l with
  | nil => rfl
  | cons d rest ih =>
    rw [List.map_cons, h d (List.mem_cons_self _ _),
      ih (fun a ha => h a (List.mem_cons_of_mem _ ha))]

/-- Collapsing is the identity on already collapsed text. -/
theorem collapseWs_eq_self {l : List Char}
    (h1 : ∀ c ∈ l, pyIsSpace c = true → c = ' ')
    (h2 : List.Chain' (fun a b => ¬(pyIsSpace a = true ∧ pyIsSpace b = true))
      l) : collapseWs l = l := by
  induction l with
  | nil => rfl
  | cons d rest ih =>
    have hrest : collapseWs rest = rest :=
      ih (fun c hc => h1 c (List.mem_cons_of_mem _ hc)) h2.tail
    simp only [collapseWs, hrest]
    by_cases hd : pyIsSpace d
    · have hd' : d = ' ' := h1 d (List.mem_cons_self _ _) hd
      rw [if_pos hd]
      have hh : ¬ rest.head? = some ' ' := by
        intro hcon
        have hb := (List.chain'_cons'.mp h2).1 ' ' hcon
        exact hb ⟨hd, by decide⟩
      rw [if_neg hh, hd']
    · rw [if_neg hd]

/-- Dropping a failing prefix is the identity when the head fails. -/
theorem dropWhile_eq_self_of_head {p : Char → Bool} {l : List Char}
    (h : ∀ c, l.head? = some c → p c = false) : l.dropWhile p = l := by
  cases l with
  | nil => rfl
  | cons d rest =>
    rw [List.dropWhile_cons, if_neg]
    simp [h d rfl]

/-- Stripping is the identity on text with non-space ends. -/
theorem pyStripL_eq_self {l : List Char}
    (hh : ∀ c, l.head? = some c → pyIsSpace c = false)
    (hl : ∀ c, l.getLast? = some c → pyIsSpace c = false) :
    pyStripL l = l := by
  unfold pyStripL
  rw [dropWhile_eq_self_of_head hh]
  rw [dropWhile_eq_self_of_head (fun c hc => hl c ?_)]
  · rw [List.reverse_reverse]
  · rw [← List.head?_reverse]
    exact hc

end Merge

namespace Merge

/-- Idempotence of the normalization pipeline on NFKC-stable outputs. -/
theorem normalizeCore_idem (l : List Char)
    (h : nfkcL (normalizeCore l) = normalizeCore l) :
    normalizeCore (normalizeCore l) = normalizeCore l := by
  have hsp : ∀ c ∈ normalizeCore l, pyIsSpace c = true → c = ' ' := by
    intro c hc hcs
    unfold normalizeCore at hc
    exact (collapseWs_shape _).1 c (mem_pyStripL hc) hcs
  have hchain : List.Chain'
      (fun a b => ¬(pyIsSpace a = true ∧ pyIsSpace b = true))
      (normalizeCore l) := by
    unfold normalizeCore
    exact chain'_pyStripL (collapseWs_shape _).2
  have hhead : ∀ c, (normalizeCore l).head? = some c →
      pyIsSpace c = false := by
    intro c hc
    unfold normalizeCore at hc
    exact pyStripL_head hc
  have hlast : ∀ c, (normalizeCore l).getLast? = some c →
      pyIsSpace c = false := by
    intro c hc
    unfold normalizeCore at hc
    exact pyStripL_last hc
  have e1 : detatweel (normalizeCore l) = normalizeCore l := by
    unfold detatweel
    exact List.filter_eq_self.mpr
      (fun c hc => by simpa using (normalizeCore_chars hc).1)
  have e2 : aleffold (normalizeCore l) = normalizeCore l := by
    unfold aleffold
    exact map_eq_self_of
      (fun c hc => by simp [(normalizeCore_chars hc).2.2.1])
  have e3 : dediac (normalizeCore l) = normalizeCore l := by
    unfold dediac
    exact List.filter_eq_self.mpr
      (fun c hc => by simp [(normalizeCore_chars hc).2.1])
  have e4 : yafold (normalizeCore l) = normalizeCore l := by
    unfold yafold
    exact map_eq_self_of
      (fun c hc => by simp [(normalizeCore_chars hc).2.2.2])
  have e5 : collapseWs (normalizeCore l) = normalizeCore l :=
    collapseWs_eq_self hsp hchain
  have e6 : pyStripL (normalizeCore l) = normalizeCore l :=
    pyStripL_eq_self hhead hlast
  calc normalizeCore (normalizeCore l)
      = pyStripL (collapseWs (yafold (dediac (aleffold (detatweel
          (nfkcL (normalizeCore l))))))) := rfl
    _ = normalizeCore l := by rw [h, e1, e2, e3, e4, e5, e6]

set_option maxHeartbeats 1000000 in
/-- Claim C5 (amended): `arabic_normalize` is idempotent on every input
whose normalized output is NFKC-stable — re-applying NFKC to
`arabic_normalize s` leaves it unchanged.  Full idempotence fails (see
the counterexample) because removing the tatweel or a diacritic can make
a base character and a combining mark adjacent, which the second
application's NFKC pass then composes. -/
theorem claim_C5_amended (s : String)
    (h : nfkc (arabic_normalize s) = arabic_normalize s) :
    arabic_normalize (arabic_normalize s) = arabic_normalize s := by
  have hL : nfkcL (normalizeCore s.data) = normalizeCore s.data :=
    congrArg String.data h
  have hcore := normalizeCore_idem s.data hL
  show String.mk (normalizeCore (arabic_normalize s).data) =
    arabic_normalize s
  rw [show (arabic_normalize s).data = normalizeCore s.data from rfl, hcore]
  rfl

/-- Witness for claim C5's amended theorem on a concrete Arabic phrase
(whose normalization is NFKC-stable). -/
theorem claim_C5_witness :
    nfkc (arabic_normalize "أهلاً  وسهلا") = arabic_normalize "أهلاً  وسهلا" ∧
    arabic_normalize (arabic_normalize "أهلاً  وسهلا") =
      arabic_normalize "أهلاً  وسهلا" :=
  ⟨by decide, claim_C5_amended "أهلاً  وسهلا" (by decide)⟩

end Merge

namespace Merge

/-! ## Lemmas for the amended global-id uniqueness theorem -/

/-- First-occurrence splitting: two decompositions of a list at an
element absent from both prefixes coincide. -/
theorem append_eq_of_first_not_mem {c : Char} :
    ∀ {p1 : List Char} {q1 p2 q2 : List Char}, c ∉ p1 → c ∉ p2 →
      p1 ++ c :: q1 = p2 ++ c :: q2 → p1 = p2 ∧ q1 = q2 := by
  intro p1
  induction p1 with
  | nil =>
    intro q1 p2 q2 _ h2 h
    cases p2 with
    | nil =>
      simp only [List.nil_append, List.cons.injEq] at h
      exact ⟨rfl, h.2⟩
    | cons d p2' =>
      simp only [List.nil_append, List.cons_append, List.cons.injEq] at h
      exact absurd (h.1 ▸ List.mem_cons_self d p2') h2
  | cons d p1' ih =>
    intro q1 p2 q2 h1 h2 h
    cases p2 with
    | nil =>
      simp only [List.cons_append, List.nil_append, List.cons.injEq] at h
      exact absurd (h.1 ▸ List.mem_cons_self d p1') (h.1 ▸ h1)
    | cons e p2' =>
      simp only [List.cons_append, List.cons.injEq] at h
      obtain ⟨rfl, h'⟩ := h
      obtain ⟨hp, hq⟩ := ih (fun hm => h1 (List.mem_cons_of_mem _ hm))
        (fun hm => h2 (List.mem_cons_of_mem _ hm)) h'
      exact ⟨by rw [hp], hq⟩

/-- Last-occurrence splitting: decompositions at an element absent from
both suffixes coincide. -/
theorem append_underscore_inj {a1 b1 a2 b2 : List Char}
    (h1 : '_' ∉ b1) (h2 : '_' ∉ b2)
    (h : a1 ++ '_' :: b1 = a2 ++ '_' :: b2) : a1 = a2 ∧ b1 = b2 := by
  have hr := congrArg List.reverse h
  simp only [List.reverse_append, List.reverse_cons, List.append_assoc,
    List.singleton_append] at hr
  obtain ⟨hb, ha⟩ := append_eq_of_first_not_mem
    (by simpa using h1) (by simpa using h2) hr
  constructor
  · have := congrArg List.reverse ha
    simpa using this
  · have := congrArg List.reverse hb
    simpa using this

/-- Concatenation of `String`s on the character level. -/
theorem string_data_append (s t : String) :
    (s ++ t).data = s.data ++ t.data := by
  cases s
  cases t
  rfl

/-- A `source + '_' + id` global id determines source and id, provided
the ids contain no underscore. -/
theorem global_id_inj {s1 s2 i1 i2 : String}
    (h1 : '_' ∉ i1.data) (h2 : '_' ∉ i2.data)
    (h : s1 ++ "_" ++ i1 = s2 ++ "_" ++ i2) : s1 = s2 ∧ i1 = i2 := by
  have hd := congrArg String.data h
  rw [string_data_append, string_data_append, string_data_append,
    string_data_append,
    show ("_" : String).data = ['_'] from rfl,
    List.append_assoc, List.append_assoc,
    List.singleton_append, List.singleton_append] at hd
  obtain ⟨ha, hb⟩ := append_underscore_inj h1 h2 hd
  exact ⟨String.ext ha, String.ext hb⟩

/-- With a fixed source, the global id determines the id. -/
theorem global_id_inj_same_source {s i1 i2 : String}
    (h : s ++ "_" ++ i1 = s ++ "_" ++ i2) : i1 = i2 := by
  have hd := congrArg String.data h
  rw [string_data_append, string_data_append] at hd
  exact String.ext (List.append_cancel_left hd)

/-- The global ids built from one file are its source stem, an
underscore, and the file's per-row ids, in order. -/
theorem buildRows_global_ids (src : String) (e : EffTable) :
    (buildRows src e).map (fun r => r.global_id) =
      e.rows.map (fun row => src ++ "_" ++ cellOf e.header row e.id_col) := by
  unfold buildRows
  induction e.rows with
  | nil => rfl
  | cons row rest ih =>
    obtain ⟨m, hm, _⟩ := map_label_total src
      (some (cellOf e.header row e.label_col)) get_label_map
    simp only [List.filterMap_cons, hm, List.map_cons]
    rw [ih]

/-- The global ids one file contributes to the merged dataset. -/
theorem fileRows_global_ids (f : SrcFile) :
    (fileRows f).map (fun r => r.global_id) =
      (fileIds f).map (fun i => stemOf f.path ++ "_" ++ i) := by
  unfold fileRows fileIds
  cases hl : f.load with
  | error e => rfl
  | ok t =>
    rcases hc : canonicalize_columns t with ⟨tc, lc, ic⟩
    simp only [hc]
    cases tc with
    | none => rfl
    | some tcol =>
      rw [buildRows_global_ids, List.map_map]
      rfl

/-- A skipped file contributes no ids. -/
theorem fileIds_eq_nil_of_not_passes {f : SrcFile}
    (h : filePasses f = false) : fileIds f = [] := by
  unfold filePasses at h
  unfold fileIds
  cases hl : f.load with
  | error e => rfl
  | ok t =>
    rw [hl] at h
    simp only [] at h
    rcases hc : canonicalize_columns t with ⟨tc, lc, ic⟩
    rw [hc] at h
    simp only [hc]
    cases tc with
    | none => rfl
    | some tcol => simp at h

end Merge

namespace Merge

/-- Extracting the `global_id` column from the written rows recovers the
collected rows' global ids. -/
theorem lookup_global_id_writtenRows (rows : List MergedRow) :
    (writtenRows rows).filterMap (fun row => row.lookup "global_id") =
      rows.map (fun r => r.global_id) := by
  have h1 : ∀ rs : List MergedRow,
      (rs.map rowDict).filterMap (fun row => row.lookup "global_id") =
        rs.map (fun r => r.global_id) := by
    intro rs
    induction rs with
    | nil => rfl
    | cons r rs ih =>
      simp only [List.map_cons, List.filterMap_cons,
        show (rowDict r).lookup "global_id" = some r.global_id from rfl]
      rw [ih]
  have h2 : ∀ rs : List MergedRow,
      (rs.map (fun r => rowDict r ++ [(ORIGINAL_TEXT_COL, r.text)])).filterMap
          (fun row => row.lookup "global_id") =
        rs.map (fun r => r.global_id) := by
    intro rs
    induction rs with
    | nil => rfl
    | cons r rs ih =>
      simp only [List.map_cons, List.filterMap_cons,
        show (rowDict r ++ [(ORIGINAL_TEXT_COL, r.text)]).lookup "global_id" =
          some r.global_id from rfl]
      rw [ih]
  unfold writtenRows
  split
  · exact h1 rows
  · exact h2 rows

/-- The stray-label remap never touches global ids. -/
theorem remapBad_global_ids (rows : List MergedRow) :
    (remapBad rows).map (fun r => r.global_id) =
      rows.map (fun r => r.global_id) := by
  have hfix : ∀ rs : List MergedRow,
      (rs.map (fun r => if CANONICAL_LABELS.contains r.label then r
        else { r with label := DEFAULT_MAP_TARGET })).map
          (fun r => r.global_id) = rs.map (fun r => r.global_id) := by
    intro rs
    induction rs with
    | nil => rfl
    | cons r rest ih =>
      simp only [List.map_cons]
      rw [ih]
      congr 1
      split <;> rfl
  unfold remapBad
  split
  · exact hfix rows
  · rfl

/-- On a run that collects at least one row, the written `global_id`
column lists each collected row's global id in order. -/
theorem mergedGlobalIds_eq (files : List SrcFile)
    (h : files.flatMap fileRows ≠ []) :
    mergedGlobalIds (merge_all files) =
      (files.flatMap fileRows).map (fun r => r.global_id) := by
  have hrows := (mergeLoop_spec files ⟨[], [], []⟩).1
  simp only [List.nil_append] at hrows
  have hlen : ¬ (mergeLoop ⟨[], [], []⟩ files).all_rows.length = 0 := by
    rw [hrows]
    exact fun h0 => h (List.length_eq_zero.mp h0)
  unfold mergedGlobalIds merge_all
  simp only [hlen, if_false, ite_false]
  rw [lookup_global_id_writtenRows, remapBad_global_ids, hrows]

/-- Pairwise-unique global ids across the whole per-file loop, under the
amended hypotheses. -/
theorem nodup_flatMap_gids (files : List SrcFile)
    (hstem : ((files.filter filePasses).map
        (fun f => stemOf f.path)).Nodup)
    (hid : ∀ f ∈ files, (fileIds f).Nodup)
    (hus : ∀ f ∈ files, ∀ i ∈ fileIds f, '_' ∉ i.data) :
    (files.flatMap (fun f => (fileIds f).map
        (fun i => stemOf f.path ++ "_" ++ i))).Nodup := by
  induction files with
  | nil => exact List.nodup_nil
  | cons f rest ih =>
    rw [List.flatMap_cons, List.nodup_append]
    have hstem' : ((rest.filter filePasses).map
        (fun g => stemOf g.path)).Nodup := by
      rw [List.filter_cons] at hstem
      by_cases hp : filePasses f
      · rw [if_pos hp, List.map_cons] at hstem
        exact hstem.of_cons
      · rwa [if_neg (by simpa using hp)] at hstem
    refine ⟨?_, ?_, ?_⟩
    · exact (hid f (List.mem_cons_self _ _)).map_on
        (fun i1 h1 i2 h2 he => global_id_inj_same_source he)
    · exact ih hstem'
        (fun g hg => hid g (List.mem_cons_of_mem _ hg))
        (fun g hg => hus g (List.mem_cons_of_mem _ hg))
    · intro x hx1 hx2
      rw [List.mem_map] at hx1
      obtain ⟨i1, hi1, rfl⟩ := hx1
      rw [List.mem_flatMap] at hx2
      obtain ⟨g, hg, hx2⟩ := hx2
      rw [List.mem_map] at hx2
      obtain ⟨i2, hi2, heq⟩ := hx2
      obtain ⟨hsame, _⟩ := global_id_inj
        (hus f (List.mem_cons_self _ _) i1 hi1)
        (hus g (List.mem_cons_of_mem _ hg) i2 hi2) heq.symm
      have hpf : filePasses f = true := by
        by_contra hnf
        rw [fileIds_eq_nil_of_not_passes
          (Bool.not_eq_true _ ▸ hnf : filePasses f = false)] at hi1
        exact absurd hi1 (List.not_mem_nil _)
      have hpg : filePasses g = true := by
        by_contra hng
        rw [fileIds_eq_nil_of_not_passes
          (Bool.not_eq_true _ ▸ hng : filePasses g = false)] at hi2
        exact absurd hi2 (List.not_mem_nil _)
      rw [List.filter_cons, if_pos (by simpa using hpf),
        List.map_cons] at hstem
      have hmem : stemOf g.path ∈
          (rest.filter filePasses).map (fun h => stemOf h.path) :=
        List.mem_map.mpr ⟨g, List.mem_filter.mpr ⟨hg, hpg⟩, rfl⟩
      exact (List.nodup_cons.mp hstem).1 (hsame ▸ hmem)

end Merge

namespace Merge

/-- The collected global ids, file by file. -/
theorem flatMap_fileRows_gids (files : List SrcFile) :
    (files.flatMap fileRows).map (fun r => r.global_id) =
      files.flatMap (fun f => (fileIds f).map
        (fun i => stemOf f.path ++ "_" ++ i)) := by
  rw [List.map_flatMap]
  induction files with
  | nil => rfl
  | cons f rest ih =>
    rw [List.flatMap_cons, List.flatMap_cons, fileRows_global_ids, ih]

/-- Claim C1 (amended): the `global_id` values of the dataset written by
`merge_all` are pairwise unique provided (a) the stems of the discovered
files that pass the load and text-column checks are pairwise distinct,
(b) within each file the per-row ids (natural id column, or the
positional fallback) are pairwise distinct, and (c) no id contains an
underscore.  The counterexample shows each hypothesis is necessary:
duplicate natural ids, two files sharing a stem, and underscores in ids
all produce colliding global ids.  The positional fallback satisfies (b)
and (c) by construction. -/
theorem claim_C1_amended (files : List SrcFile)
    (hstem : ((files.filter filePasses).map
        (fun f => stemOf f.path)).Nodup)
    (hid : ∀ f ∈ files, (fileIds f).Nodup)
    (hus : ∀ f ∈ files, ∀ i ∈ fileIds f, '_' ∉ i.data) :
    (mergedGlobalIds (merge_all files)).Nodup := by
  by_cases hz : files.flatMap fileRows = []
  · have hrows := (mergeLoop_spec files ⟨[], [], []⟩).1
    simp only [List.nil_append] at hrows
    rw [hz] at hrows
    unfold mergedGlobalIds merge_all
    simp [hrows]
  · rw [mergedGlobalIds_eq files hz, flatMap_fileRows_gids]
    exact nodup_flatMap_gids files hstem hid hus

/-- Witness for claim C1's amended theorem: a file with a distinct,
underscore-free natural id column next to a file using the positional
fallback. -/
theorem claim_C1_witness :
    ((([SrcFile.mk "All_datasets/d1.csv"
          (Except.ok (RawTable.mk ["text", "id"] [["x", "5"], ["y", "9"]])),
        SrcFile.mk "All_datasets/d2.csv"
          (Except.ok (RawTable.mk ["text"] [["z"]]))].filter
            filePasses).map (fun f => stemOf f.path)).Nodup ∧
     (∀ f ∈ [SrcFile.mk "All_datasets/d1.csv"
          (Except.ok (RawTable.mk ["text", "id"] [["x", "5"], ["y", "9"]])),
        SrcFile.mk "All_datasets/d2.csv"
          (Except.ok (RawTable.mk ["text"] [["z"]]))],
        (fileIds f).Nodup ∧ ∀ i ∈ fileIds f, '_' ∉ i.data) ∧
     (mergedGlobalIds (merge_all
        [SrcFile.mk "All_datasets/d1.csv"
          (Except.ok (RawTable.mk ["text", "id"] [["x", "5"], ["y", "9"]])),
         SrcFile.mk "All_datasets/d2.csv"
          (Except.ok (RawTable.mk ["text"] [["z"]]))])).Nodup) :=
  ⟨by decide, by decide,
   claim_C1_amended
     [SrcFile.mk "All_datasets/d1.csv"
       (Except.ok (RawTable.mk ["text", "id"] [["x", "5"], ["y", "9"]])),
      SrcFile.mk "All_datasets/d2.csv"
       (Except.ok (RawTable.mk ["text"] [["z"]]))]
     (by decide) (by decide) (by decide)⟩

end Merge
